import Mathlib

/-!
Verification development for the Google Life Sciences executor plugin
(`snakemake_executor_plugin_google_lifesciences/__init__.py`).

Each Python function relevant to the verified properties is shallowly
embedded as an executable Lean definition; machine integers are `Nat`/`Int`,
fallible code returns `Except`, and the executor's mutable attributes are
threaded as explicit state records.
-/

namespace GLS

/-- A Compute Engine machine type, as consumed by `_generate_job_resources`
(`name`, `guestCpus`, `memoryMb` are the fields the code reads). -/
structure MachineType where
  name : String
  guestCpus : Nat
  memoryMb : Nat
deriving DecidableEq, Repr

/-- Errors raised by `_generate_job_resources` when no machine type survives
filtering (the two `WorkflowError` branches at lines 526-545). -/
inductive PlanError where
  /-- "Machine prefix {pfx} is too strict, or the resources cannot be satisfied". -/
  | pfxTooStrict (pfx : String)
  /-- "You requested {requestMemory} MB memory, {requestCpu} cores. The maximum
  available are {availableMemory} MB memory and {availableCpu} cores." -/
  | noMachineTypeAvailable (requestMemory requestCpu availableMemory availableCpu : Nat)
deriving DecidableEq, Repr

/-- One step of the selection loop at lines 555-562: the incumbent (`smallest`,
`min_cores`, `min_mem`) is replaced by `mt` when `mt` has strictly fewer CPUs
and strictly less memory. -/
def selStep (inc mt : MachineType) : MachineType :=
  if mt.guestCpus < inc.guestCpus ∧ mt.memoryMb < inc.memoryMb then mt else inc

/-- The running maximum CPU count tracked at lines 507-511 (`max_cpu`,
initialised to `1`). -/
def maxCpuSeen (machineTypes : List MachineType) : Nat :=
  machineTypes.foldl (fun m mt => max m mt.guestCpus) 1

/-- The running maximum memory tracked at lines 508-512 (`max_mem`,
initialised to `15360`). -/
def maxMemSeen (machineTypes : List MachineType) : Nat :=
  machineTypes.foldl (fun m mt => max m mt.memoryMb) 15360

/-- Python's `str.startswith`, on the character lists of the strings (the
byte-level `String.startsWith` does not reduce inside the kernel). -/
def strStartsWith (s pre : String) : Bool :=
  pre.toList.isPrefixOf s.toList

/-- The `keepers` dict after the two filtering passes of
`_generate_job_resources` (lines 503-523): drop any machine type with
`guestCpus < cores` or `memoryMb < mem_mb`, then, when a machine-type
name filter is set (`self.machine_type_prefix`), keep only names that
start with it.  `none` models both a `None` and an empty (falsy) filter. -/
def planKeepers (cores memMb : Nat) (pfx : Option String) (machineTypes : List MachineType) :
    List MachineType :=
  let ks := machineTypes.filter (fun mt => decide (¬(mt.guestCpus < cores ∨ mt.memoryMb < memMb)))
  match pfx with
  | some p => ks.filter (fun mt => strStartsWith mt.name p)
  | none => ks

/-- The machine-type selection of `_generate_job_resources` (lines 503-567):
filter to adequate shapes, fail when nothing is left (message depending on
whether a name filter was set), otherwise run the dominant-minimal selection
loop starting from the first kept shape.  The Python loop iterates over all of
`keepers` including the first entry, hence the fold over the full list. -/
def planMachineType (cores memMb : Nat) (pfx : Option String)
    (machineTypes : List MachineType) : Except PlanError MachineType :=
  match planKeepers cores memMb pfx machineTypes with
  | [] =>
    match pfx with
    | some p => .error (.pfxTooStrict p)
    | none =>
      .error (.noMachineTypeAvailable memMb cores (maxMemSeen machineTypes)
        (maxCpuSeen machineTypes))
  | first :: rest => .ok ((first :: rest).foldl selStep first)

/-- The dominant-minimal selection loop either keeps its initial incumbent or
moves to a list element that strictly dominates (is strictly smaller than) the
initial incumbent in both dimensions. -/
theorem foldl_selStep_dom (l : List MachineType) (inc : MachineType) :
    l.foldl selStep inc = inc ∨
      (l.foldl selStep inc ∈ l ∧ (l.foldl selStep inc).guestCpus < inc.guestCpus ∧
        (l.foldl selStep inc).memoryMb < inc.memoryMb) := by
  induction l generalizing inc with
  | nil => exact Or.inl rfl
  | cons a t ih =>
    rw [List.foldl_cons]
    by_cases h : a.guestCpus < inc.guestCpus ∧ a.memoryMb < inc.memoryMb
    · rw [show selStep inc a = a from by simp [selStep, h]]
      rcases ih a with h1 | ⟨hm, hc, hmm⟩
      · right
        rw [h1]
        exact ⟨List.mem_cons_self a t, h.1, h.2⟩
      · right
        exact ⟨List.mem_cons_of_mem a hm, hc.trans h.1, hmm.trans h.2⟩
    · rw [show selStep inc a = inc from by simp [selStep, h]]
      rcases ih inc with h1 | ⟨hm, hc, hmm⟩
      · left; exact h1
      · right
        exact ⟨List.mem_cons_of_mem a hm, hc, hmm⟩

/-- Every machine type kept by the first filtering pass meets both requested
bounds. -/
theorem mem_planKeepers_bounds (cores memMb : Nat) (pfx : Option String)
    (machineTypes : List MachineType) (mt : MachineType)
    (h : mt ∈ planKeepers cores memMb pfx machineTypes) :
    mt ∈ machineTypes ∧ cores ≤ mt.guestCpus ∧ memMb ≤ mt.memoryMb := by
  have h' : mt ∈ machineTypes.filter
      (fun mt => decide (¬(mt.guestCpus < cores ∨ mt.memoryMb < memMb))) := by
    unfold planKeepers at h
    cases pfx with
    | none => exact h
    | some p => exact List.mem_of_mem_filter h
  have hm := List.mem_of_mem_filter h'
  have hp := List.of_mem_filter h'
  simp only [decide_eq_true_eq, not_or, not_lt] at hp
  exact ⟨hm, hp.1, hp.2⟩

/-- The two-entry example catalog from the specification:
`{A: 2cpu/4096mem, B: 4cpu/8192mem}`. -/
def mtA : MachineType := ⟨"A", 2, 4096⟩

/-- Second entry of the example catalog. -/
def mtB : MachineType := ⟨"B", 4, 8192⟩

/-- The example catalog `[A, B]` in dict insertion order. -/
def catAB : List MachineType := [mtA, mtB]

/-- A catalog whose per-dimension maxima are not realised by a single shape:
one CPU-heavy entry and one memory-heavy entry. -/
def catSplit : List MachineType := [⟨"cpuheavy", 4, 1024⟩, ⟨"memheavy", 1, 8192⟩]

/-- C1 (counterexample): for the catalog `catSplit`, the request `4cpu/8192mem`
is within the per-dimension maxima (some shape has ≥ 4 CPUs, some shape has
≥ 8192 MB), yet `_generate_job_resources` raises the no-machine-type-available
error, because no single shape satisfies both bounds.  The reported maximum
memory is even `15360` — the hard-coded initial value of `max_mem` — rather
than the catalog's `8192`. -/
theorem planMachineType_c1_cex :
    (catSplit.any (fun mt => decide (4 ≤ mt.guestCpus))) = true ∧
    (catSplit.any (fun mt => decide (8192 ≤ mt.memoryMb))) = true ∧
    planMachineType 4 8192 none catSplit =
      .error (.noMachineTypeAvailable 8192 4 15360 4) := by
  refine ⟨rfl, rfl, rfl⟩

/-- C1 (amended): whenever some single catalog entry satisfies both the
requested core and memory bounds (and no machine-type name filter is set),
`_generate_job_resources` selects a machine type, and the selected machine
type satisfies both bounds. -/
theorem planMachineType_adequate (cores memMb : Nat) (machineTypes : List MachineType)
    (h : ∃ mt ∈ machineTypes, cores ≤ mt.guestCpus ∧ memMb ≤ mt.memoryMb) :
    ∃ sel, planMachineType cores memMb none machineTypes = .ok sel ∧
      cores ≤ sel.guestCpus ∧ memMb ≤ sel.memoryMb := by
  obtain ⟨mt, hmem, hc, hm⟩ := h
  have hkeep : mt ∈ planKeepers cores memMb none machineTypes := by
    unfold planKeepers
    simp only []
    refine List.mem_filter.mpr ⟨hmem, ?_⟩
    simp [not_or, not_lt, hc, hm]
  cases hk : planKeepers cores memMb none machineTypes with
  | nil => rw [hk] at hkeep; exact absurd hkeep (List.not_mem_nil mt)
  | cons first rest =>
    refine ⟨(first :: rest).foldl selStep first, ?_, ?_⟩
    · unfold planMachineType
      rw [hk]
    · have hsel : (first :: rest).foldl selStep first ∈ planKeepers cores memMb none machineTypes := by
        rw [hk]
        rcases foldl_selStep_dom (first :: rest) first with h1 | ⟨h1, _, _⟩
        · rw [h1]; exact List.mem_cons_self first rest
        · exact h1
      have := mem_planKeepers_bounds cores memMb none machineTypes _ hsel
      exact ⟨this.2.1, this.2.2⟩

/-- C1 (witness): a concrete catalog containing an adequate shape, on which
the amended theorem applies and planning succeeds. -/
theorem planMachineType_adequate_witness :
    (∃ mt ∈ catAB, 1 ≤ mt.guestCpus ∧ 1024 ≤ mt.memoryMb) ∧
    ∃ sel, planMachineType 1 1024 none catAB = .ok sel ∧
      1 ≤ sel.guestCpus ∧ 1024 ≤ sel.memoryMb :=
  ⟨by decide, planMachineType_adequate 1 1024 catAB (by decide)⟩

/-- C2: the selection loop replaces the incumbent exactly when a candidate is
strictly smaller in both the CPU and the memory dimension (a candidate smaller
in only one dimension never displaces the incumbent); the loop's result is
either the initial incumbent or a candidate strictly dominating it in both
dimensions; and on the example catalog `{A: 2cpu/4096mem, B: 4cpu/8192mem}`
the requests `2cpu/4096mem`, `3cpu/4096mem` and `8cpu/4096mem` respectively
select `A`, select `B`, and fail with the no-machine-type-available error. -/
theorem planMachineType_dominant_minimal :
    (∀ inc mt : MachineType,
      (mt.guestCpus < inc.guestCpus ∧ mt.memoryMb < inc.memoryMb → selStep inc mt = mt) ∧
      (¬(mt.guestCpus < inc.guestCpus ∧ mt.memoryMb < inc.memoryMb) → selStep inc mt = inc)) ∧
    (∀ (l : List MachineType) (inc : MachineType),
      l.foldl selStep inc = inc ∨
        (l.foldl selStep inc ∈ l ∧ (l.foldl selStep inc).guestCpus < inc.guestCpus ∧
          (l.foldl selStep inc).memoryMb < inc.memoryMb)) ∧
    planMachineType 2 4096 none catAB = .ok mtA ∧
    planMachineType 3 4096 none catAB = .ok mtB ∧
    planMachineType 8 4096 none catAB =
      .error (.noMachineTypeAvailable 4096 8 15360 4) := by
  refine ⟨?_, foldl_selStep_dom, rfl, rfl, rfl⟩
  intro inc mt
  constructor
  · intro h; simp [selStep, h]
  · intro h; simp [selStep, h]

/-- C2 (witness): the strictly-both-smaller candidate `A` displaces incumbent
`B`, while a candidate smaller in no dimension leaves the incumbent in place. -/
theorem planMachineType_dominant_minimal_witness :
    (mtA.guestCpus < mtB.guestCpus ∧ mtA.memoryMb < mtB.memoryMb) ∧
    selStep mtB mtA = mtA ∧ selStep mtA mtB = mtA :=
  ⟨by decide, (planMachineType_dominant_minimal.1 mtB mtA).1 (by decide),
    (planMachineType_dominant_minimal.1 mtA mtB).2 (by decide)⟩

/-- The `unexpectedExitStatus` record of a lifecycle event
(`exitStatus` plus an optional `stderr` excerpt). -/
structure ExitAction where
  exitStatus : Int
  stderr : Option String
deriving DecidableEq, Repr

/-- A lifecycle event from an operation status payload, with the three keys
`_job_was_successful` reads: `description`, an optional `failed` record
(code and cause), and an optional `unexpectedExitStatus` record. -/
structure JobEvent where
  description : String
  failed : Option (String × String)
  unexpectedExitStatus : Option ExitAction
deriving DecidableEq, Repr

/-- One iteration of the event loop of `_job_was_successful` (lines 343-362):
debug-log the event description, then on a `failed` record set `success` to
`False` and log code/cause; otherwise, on a non-zero `unexpectedExitStatus`,
set `success` to `False` and (only when `stderr` is present) log the message.
The accumulator carries (`success`, debug log so far). -/
def jobStep (acc : Bool × List String) (e : JobEvent) : Bool × List String :=
  let log := acc.2 ++ [e.description]
  match e.failed with
  | some fc => (false, log ++ [fc.1 ++ ": " ++ fc.2])
  | none =>
    match e.unexpectedExitStatus with
    | some a =>
      if a.exitStatus ≠ 0 then
        match a.stderr with
        | some s => (false, log ++ [e.description ++ ": " ++ s])
        | none => (false, log)
      else (acc.1, log)
    | none => (acc.1, log)

/-- `_job_was_successful` (lines 333-364): fold the event loop over all events
starting from `success = True`, returning the verdict and the debug log. -/
def jobWasSuccessful (events : List JobEvent) : Bool × List String :=
  events.foldl jobStep (true, [])

/-- An event that leaves the verdict successful: no `failed` record and no
non-zero exit status. -/
def eventOk (e : JobEvent) : Bool :=
  e.failed.isNone &&
    (match e.unexpectedExitStatus with
     | some a => a.exitStatus == 0
     | none => true)

/-- The debug lines a single loop iteration appends for event `e`. -/
def eventLogLines (e : JobEvent) : List String :=
  [e.description] ++
    (match e.failed with
     | some fc => [fc.1 ++ ": " ++ fc.2]
     | none =>
       match e.unexpectedExitStatus with
       | some a =>
         if a.exitStatus ≠ 0 then
           match a.stderr with
           | some s => [e.description ++ ": " ++ s]
           | none => []
         else []
       | none => [])

/-- The debug lines appended across a whole event list. -/
def eventLogAll : List JobEvent → List String
  | [] => []
  | e :: t => eventLogLines e ++ eventLogAll t

/-- One loop iteration ANDs the verdict with `eventOk` and appends that
event's log lines. -/
theorem jobStep_eq (b : Bool) (l : List String) (e : JobEvent) :
    jobStep (b, l) e = (b && eventOk e, l ++ eventLogLines e) := by
  rcases e with ⟨d, f, u⟩
  cases f with
  | some fc => simp [jobStep, eventOk, eventLogLines]
  | none =>
    cases u with
    | none => simp [jobStep, eventOk, eventLogLines]
    | some a =>
      by_cases hz : a.exitStatus = 0
      · simp [jobStep, eventOk, eventLogLines, hz]
      · cases hs : a.stderr with
        | some s => simp [jobStep, eventOk, eventLogLines, hz, hs]
        | none => simp [jobStep, eventOk, eventLogLines, hz, hs]

/-- The fold's verdict is the conjunction of `eventOk` over all events. -/
theorem foldl_jobStep_fst (events : List JobEvent) (b : Bool) (l : List String) :
    (events.foldl jobStep (b, l)).1 = (b && events.all eventOk) := by
  induction events generalizing b l with
  | nil => simp
  | cons e t ih =>
    rw [List.foldl_cons, jobStep_eq, ih, List.all_cons, ← Bool.and_assoc]

/-- The fold's log is the initial log followed by each event's lines in order. -/
theorem foldl_jobStep_snd (events : List JobEvent) (b : Bool) (l : List String) :
    (events.foldl jobStep (b, l)).2 = l ++ eventLogAll events := by
  induction events generalizing b l with
  | nil => simp [eventLogAll]
  | cons e t ih =>
    rw [List.foldl_cons, jobStep_eq, ih, eventLogAll, List.append_assoc]

/-- Every event's description occurs, in order, in the produced debug log. -/
theorem descriptions_sublist_eventLogAll (events : List JobEvent) :
    (events.map (fun e => e.description)).Sublist (eventLogAll events) := by
  induction events with
  | nil => simp [eventLogAll]
  | cons e t ih =>
    rw [List.map_cons, eventLogAll]
    show (e.description :: t.map (fun e => e.description)).Sublist
      ((e.description :: (eventLogLines e).tail) ++ eventLogAll t)
    rw [List.cons_append]
    exact (ih.trans (List.sublist_append_right _ _)).cons₂ e.description

/-- `eventOk` as a proposition. -/
theorem eventOk_iff (e : JobEvent) :
    eventOk e = true ↔
      (e.failed = none ∧ ∀ a, e.unexpectedExitStatus = some a → a.exitStatus = 0) := by
  rcases e with ⟨d, f, u⟩
  cases f with
  | some fc => simp [eventOk]
  | none =>
    cases u with
    | none => simp [eventOk]
    | some a => simp [eventOk]

/-- C6: `_job_was_successful` returns `True` iff no event carries a `failed`
record and no event carries a non-zero exit status; moreover the loop visits
every event (each event's description appears, in order, in the debug log);
and concretely a single non-zero-exit event yields failure, only-zero-exit
events yield success, and an empty event list yields success. -/
theorem jobWasSuccessful_spec (events : List JobEvent) :
    ((jobWasSuccessful events).1 = true ↔
      ∀ e ∈ events, e.failed = none ∧
        ∀ a, e.unexpectedExitStatus = some a → a.exitStatus = 0) ∧
    (events.map (fun e => e.description)).Sublist (jobWasSuccessful events).2 ∧
    (jobWasSuccessful [⟨"nonzero", none, some ⟨1, none⟩⟩]).1 = false ∧
    (jobWasSuccessful [⟨"a", none, some ⟨0, none⟩⟩, ⟨"b", none, some ⟨0, some "s"⟩⟩]).1
      = true ∧
    (jobWasSuccessful []).1 = true := by
  refine ⟨?_, ?_, by decide, by decide, by decide⟩
  · rw [jobWasSuccessful, foldl_jobStep_fst, Bool.true_and, List.all_eq_true]
    exact ⟨fun h e he => (eventOk_iff e).mp (h e he),
      fun h e he => (eventOk_iff e).mpr (h e he)⟩
  · rw [jobWasSuccessful, foldl_jobStep_snd, List.nil_append]
    exact descriptions_sublist_eventLogAll events

/-- C6 (witness): the classification equivalence evaluated on a concrete
two-event status whose events all exit zero. -/
theorem jobWasSuccessful_spec_witness :
    ((jobWasSuccessful [⟨"a", none, some ⟨0, none⟩⟩, ⟨"b", none, none⟩]).1 = true ↔
      ∀ e ∈ [(⟨"a", none, some ⟨0, none⟩⟩ : JobEvent), ⟨"b", none, none⟩],
        e.failed = none ∧
          ∀ a, e.unexpectedExitStatus = some a → a.exitStatus = 0) :=
  (jobWasSuccessful_spec [⟨"a", none, some ⟨0, none⟩⟩, ⟨"b", none, none⟩]).1

/-- An exception raised by a Google API request's `execute()`: an
`HttpError` with a status code and body, or any other exception (e.g. a
broken pipe) with a message. -/
inductive GError where
  | httpError (status : Nat) (content : String)
  | otherError (msg : String)
deriving DecidableEq, Repr

/-- The message text `str(ex)` used when wrapping an exception in a
`WorkflowError` (the exact rendering is opaque to the verified logic). -/
def gErrorMsg : GError → String
  | .httpError s c => "HttpError " ++ toString s ++ ": " ++ c
  | .otherError m => m

/-- An exception escaping `_retry_request`: either a raw `HttpError`
propagating unwrapped, or the `WorkflowError` raised at line 387 wrapping the
last cause.  (The former is in fact never produced — see
`retryRequestGo_never_http` — which is what makes the `except HttpError`
branches of `check_active_jobs` unreachable.) -/
inductive ExecError where
  | httpEsc (status : Nat) (content : String)
  | workflowError (cause : GError)
deriving DecidableEq, Repr

/-- `_retry_request` (lines 366-387): execute the request; on any exception,
if attempts remain, sleep `timeout`, double it, decrement the budget and
recurse; once the budget is exhausted, wrap the last exception in a
`WorkflowError`.  `req` maps the (0-based) attempt index to that attempt's
outcome; the result carries the list of sleeps performed, in order. -/
def retryRequestGo {α : Type} (req : Nat → Except GError α) :
    Nat → Nat → Nat → Except ExecError α × List Nat
  | i, _, 0 =>
    match req i with
    | .ok v => (.ok v, [])
    | .error ex => (.error (.workflowError ex), [])
  | i, timeout, n + 1 =>
    match req i with
    | .ok v => (.ok v, [])
    | .error _ =>
      let r := retryRequestGo req (i + 1) (timeout * 2) n
      (r.1, timeout :: r.2)

/-- `_retry_request` with its default arguments `timeout=2`, `attempts=3`. -/
def retryRequest {α : Type} (req : Nat → Except GError α) :
    Except ExecError α × List Nat :=
  retryRequestGo req 0 2 3

/-- `_retry_request` never lets an `HttpError` escape unwrapped: every failure
is re-raised as a `WorkflowError`. -/
theorem retryRequestGo_never_http {α : Type} (req : Nat → Except GError α)
    (i timeout n : Nat) (s : Nat) (c : String) :
    (retryRequestGo req i timeout n).1 ≠ .error (.httpEsc s c) := by
  induction n generalizing i timeout with
  | zero =>
    unfold retryRequestGo
    cases req i <;> simp
  | succ n ih =>
    unfold retryRequestGo
    cases req i with
    | ok v => simp
    | error e => simpa using ih (i + 1) (timeout * 2)

/-- An operation status payload as read by `check_active_jobs`
(`status.get("done", False)`) and `_job_was_successful`
(`status["metadata"]["events"]`). -/
structure OpStatus where
  done : Bool
  events : List JobEvent
deriving DecidableEq, Repr

/-- What `check_active_jobs` does with one active job (lines 282-316):
which reporting path fires, or that the job is yielded as still running.
`errorCallback` is the 404 branch (`j.error_callback(j.job)`), `reportedError`
the paths calling `report_job_error` with a message, `crashed` the fall-through
when an `HttpError` with any other status escapes (the subsequent read of the
unbound `status` variable would raise). -/
inductive PollOutcome where
  | errorCallback
  | reportedError (msg : String)
  | reportedSuccess
  | reportedFailure
  | stillRunning
  | crashed
deriving DecidableEq, Repr

/-- The per-job body of `check_active_jobs` (lines 282-316): run the status
request through `_retry_request`, dispatch on the escaping exception
(404 → error callback, 500 → report body, `WorkflowError` → report message),
and classify a completed status with `_job_was_successful`.  Returns the
outcome together with the sleeps performed by the retry wrapper. -/
def pollOneJob (req : Nat → Except GError OpStatus) : PollOutcome × List Nat :=
  let r := retryRequest req
  match r.1 with
  | .error (.httpEsc 404 _) => (.errorCallback, r.2)
  | .error (.httpEsc 500 content) => (.reportedError content, r.2)
  | .error (.httpEsc _ _) => (.crashed, r.2)
  | .error (.workflowError e) => (.reportedError (gErrorMsg e), r.2)
  | .ok status =>
    if status.done then
      if (jobWasSuccessful status.events).1 then (.reportedSuccess, r.2)
      else (.reportedFailure, r.2)
    else (.stillRunning, r.2)

/-- C3: a job whose status query answers HTTP 404 on every attempt is *not*
reported immediately through the 404 branch: `_retry_request` catches the
`HttpError`, sleeps 2, 4 and 8 seconds retrying the disappeared operation,
and finally wraps it in a `WorkflowError`, so the job is reported through the
generic `except WorkflowError` path and the dedicated no-retry 404 branch
(`j.error_callback`) is unreachable. -/
theorem pollOneJob_404_retried :
    pollOneJob (fun _ => .error (.httpError 404 "operation not found")) =
      (.reportedError (gErrorMsg (.httpError 404 "operation not found")), [2, 4, 8]) ∧
    (pollOneJob (fun _ => .error (.httpError 404 "operation not found"))).1 ≠
      .errorCallback :=
  ⟨rfl, by decide⟩

/-- Modelled from the spec: the retryability classification of §4.1/§7
("network errors, specific server error codes" retryable; "malformed request,
permission denied" not).  The concrete predicate
(`google_cloud_retry_predicate` in the plugin's `common` module) is not among
the sources under verification; only this classification of example errors is
needed to state the claim. -/
def retryablePred : GError → Bool
  | .httpError status _ => 500 ≤ status
  | .otherError _ => true

/-- C4 (counterexample): a permission-denied failure — non-retryable by the
retryability classification — passed to `_retry_request` is *not* propagated
immediately: the wrapper sleeps 2, 4 and 8 seconds, consumes the whole retry
budget and only then raises a `WorkflowError` wrapping the error. -/
theorem retryRequest_nonretryable_cex :
    retryablePred (.httpError 403 "permission denied") = false ∧
    retryRequest (fun _ => (Except.error (.httpError 403 "permission denied") :
        Except GError OpStatus)) =
      (.error (.workflowError (.httpError 403 "permission denied")), [2, 4, 8]) :=
  ⟨rfl, rfl⟩

/-- C4 (amended): `_retry_request` consults no retryability predicate: an
operation failing with *any* fixed error — retryable or not — goes through the
full sleep-double-retry loop, sleeping `timeout · 2^k` for `k = 0, …, n-1`
before the error is finally wrapped in a `WorkflowError`. -/
theorem retryRequest_retries_every_error {α : Type} (e : GError) (i timeout n : Nat) :
    retryRequestGo (fun _ => (Except.error e : Except GError α)) i timeout n =
      (.error (.workflowError e), (List.range n).map (fun k => timeout * 2 ^ k)) := by
  induction n generalizing i timeout with
  | zero => rfl
  | succ n ih =>
    have hfun : (fun k => timeout * 2 * 2 ^ k) =
        ((fun k => timeout * 2 ^ k) ∘ Nat.succ) := by
      funext k
      simp [Function.comp, pow_succ]
      ring
    unfold retryRequestGo
    rw [ih]
    rw [List.range_succ_eq_map, List.map_cons, List.map_map, ← hfun]
    simp

/-- Python's `pat in s` substring test on character lists: `pat` is a prefix
of some suffix of the list. -/
def listContainsSub (pat : List Char) : List Char → Bool
  | [] => pat.isEmpty
  | c :: rest => pat.isPrefixOf (c :: rest) || listContainsSub pat rest

/-- Python's `pat in s` substring test on strings. -/
def strContainsSub (s pat : String) : Bool :=
  listContainsSub pat.toList s.toList

/-- `l.contains` agrees with list membership. -/
theorem contains_iff {α : Type} [BEq α] [LawfulBEq α] (l : List α) (a : α) :
    l.contains a = true ↔ a ∈ l :=
  List.elem_iff

/-- The per-zone name filtering of `get_available_machine_types`
(lines 419-421): the zone's machine-type names, minus names containing
`"micro"`, minus names matching `^(e2|m1)`. -/
def okNames (types : List MachineType) : List String :=
  ((types.map (fun mt => mt.name)).filter
      (fun n => !(strContainsSub n "micro"))).filter
    (fun n => !(strStartsWith n "e2" || strStartsWith n "m1"))

/-- Insertion into a Python dict keyed by machine-type name: replace an
existing entry in place, otherwise append. -/
def dictInsert (l : List MachineType) (mt : MachineType) : List MachineType :=
  if l.any (fun x => x.name == mt.name) then
    l.map (fun x => if x.name == mt.name then mt else x)
  else l ++ [mt]

/-- The dict comprehension `{mt["name"]: mt for mt in lookup[zone["name"]]}`
(line 413): a name-keyed dict built left to right. -/
def dedupByName (types : List MachineType) : List MachineType :=
  types.foldl dictInsert []

/-- The `to_remove` set built at lines 417-424: iterate over the remaining
(non-base) zones and collect every base machine-type name that is absent from
that zone's filtered name list. -/
def toRemoveList (machineTypes : List MachineType)
    (others : List (List MachineType)) : List String :=
  others.foldl
    (fun acc zoneTypes =>
      acc ++ (machineTypes.map (fun mt => mt.name)).filter
        (fun n => !((okNames zoneTypes).contains n)))
    []

/-- `get_available_machine_types` (lines 389-428) after the zone fetches,
taking the per-zone machine-type catalogs in fetch order: use the last zone's
catalog as the base dict, collect `to_remove` over all other zones, and drop
the collected names from the base.  An empty zone list would crash the Python
(`lookup[zone["name"]]` with `zone` unbound); the resolver is only invoked
with at least one matching zone. -/
def getAvailableMachineTypes (zones : List (List MachineType)) : List MachineType :=
  match zones.getLast? with
  | none => []
  | some lastZone =>
    let machineTypes := dedupByName lastZone
    machineTypes.filter
      (fun mt => !((toRemoveList machineTypes zones.dropLast).contains mt.name))

/-- Membership in the `to_remove` collection: a name removed by some
non-base zone. -/
theorem mem_toRemoveList (mts : List MachineType) (others : List (List MachineType))
    (a : String) :
    a ∈ toRemoveList mts others ↔
      ∃ z ∈ others, a ∈ mts.map (fun mt => mt.name) ∧ a ∉ okNames z := by
  have haux : ∀ acc : List String,
      a ∈ others.foldl
        (fun acc zoneTypes =>
          acc ++ (mts.map (fun mt => mt.name)).filter
            (fun n => !((okNames zoneTypes).contains n)))
        acc ↔
      a ∈ acc ∨ ∃ z ∈ others, a ∈ mts.map (fun mt => mt.name) ∧ a ∉ okNames z := by
    induction others with
    | nil => intro acc; simp
    | cons z zs ih =>
      intro acc
      rw [List.foldl_cons, ih]
      simp only [List.mem_append, List.mem_filter, Bool.not_eq_true',
        ← Bool.not_eq_true, contains_iff, List.mem_cons]
      constructor
      · rintro (((h | ⟨h1, h2⟩) | ⟨z', hz', h1, h2⟩))
        · exact Or.inl h
        · exact Or.inr ⟨z, Or.inl rfl, h1, h2⟩
        · exact Or.inr ⟨z', Or.inr hz', h1, h2⟩
      · rintro (h | ⟨z', hz' | hz', h1, h2⟩)
        · exact Or.inl (Or.inl h)
        · exact Or.inl (Or.inr ⟨h1, hz' ▸ h2⟩)
        · exact Or.inr ⟨z', hz', h1, h2⟩
  simpa [toRemoveList] using haux []

/-- Folding dict insertion over names that are all fresh just appends. -/
theorem foldl_dictInsert_eq (ts : List MachineType) : ∀ acc : List MachineType,
    ((acc ++ ts).map (fun mt => mt.name)).Nodup → ts.foldl dictInsert acc = acc ++ ts := by
  induction ts with
  | nil => intro acc _; simp
  | cons a t ih =>
    intro acc h
    have hdis : ∀ x ∈ acc, ¬(x.name == a.name) = true := by
      intro x hx hbeq
      have hxan : x.name = a.name := by simpa using hbeq
      rw [List.map_append, List.nodup_append] at h
      have hmem1 : x.name ∈ acc.map (fun mt => mt.name) := List.mem_map_of_mem _ hx
      have hmem2 : x.name ∈ (a :: t).map (fun mt => mt.name) := by
        rw [hxan]
        exact List.mem_map_of_mem _ (List.mem_cons_self a t)
      exact h.2.2 hmem1 hmem2
    have hany : acc.any (fun x => x.name == a.name) = false := by
      rw [List.any_eq_false]
      intro x hx
      exact hdis x hx
    have hstep : dictInsert acc a = acc ++ [a] := by
      rw [dictInsert, hany]
      simp
    rw [List.foldl_cons, hstep, ih (acc ++ [a]) (by simpa using h), List.append_assoc]
    simp

/-- A name-keyed dict built from entries with pairwise-distinct names is the
entry list itself. -/
theorem dedupByName_eq_self (ts : List MachineType)
    (h : (ts.map (fun mt => mt.name)).Nodup) : dedupByName ts = ts := by
  simpa [dedupByName] using foldl_dictInsert_eq ts [] (by simpa using h)

/-- `l.contains` is `false` exactly on non-members. -/
theorem contains_eq_false_iff {α : Type} [BEq α] [LawfulBEq α] (l : List α) (a : α) :
    l.contains a = false ↔ a ∉ l := by
  constructor
  · intro h hm
    have hc := (contains_iff l a).mpr hm
    rw [h] at hc
    exact Bool.false_ne_true hc
  · intro h
    cases hc : l.contains a with
    | false => rfl
    | true => exact absurd ((contains_iff l a).mp hc) h

/-- A zone catalog consisting of a single discouraged burstable shape. -/
def microZone : List MachineType := [⟨"e2-micro", 2, 1024⟩]

/-- C5 (counterexample): with a single fetched zone, `lookup` is emptied by
the `del` of the base zone, the removal loop never runs, and the resolver
returns the base zone's catalog unfiltered — including a shape whose name
contains `"micro"` and starts with `"e2"`. -/
theorem getAvailableMachineTypes_c5_cex :
    getAvailableMachineTypes [microZone] = [⟨"e2-micro", 2, 1024⟩] ∧
    strContainsSub "e2-micro" "micro" = true ∧
    strStartsWith "e2-micro" "e2" = true :=
  ⟨rfl, rfl, rfl⟩

/-- C5 (amended): with at least two fetched zones (base-zone names pairwise
distinct), a shape is returned iff it is in the last-fetched (base) zone and
its name survives the micro/e2/m1 filter of every other fetched zone; hence
every returned shape is non-micro, non-e2, non-m1 and its name is present in
every fetched zone.  With a single zone no filtering happens at all (see the
counterexample). -/
theorem getAvailableMachineTypes_spec (front : List (List MachineType))
    (base : List MachineType) (mt : MachineType)
    (hfront : front ≠ [])
    (hnd : (base.map (fun mt => mt.name)).Nodup) :
    (mt ∈ getAvailableMachineTypes (front ++ [base]) ↔
      mt ∈ base ∧ ∀ z ∈ front, mt.name ∈ okNames z) ∧
    (mt ∈ getAvailableMachineTypes (front ++ [base]) →
      strContainsSub mt.name "micro" = false ∧
      strStartsWith mt.name "e2" = false ∧ strStartsWith mt.name "m1" = false ∧
      ∀ z ∈ front ++ [base], mt.name ∈ z.map (fun x => x.name)) := by
  have hgam : getAvailableMachineTypes (front ++ [base]) =
      base.filter (fun mt => !((toRemoveList base front).contains mt.name)) := by
    simp only [getAvailableMachineTypes, List.getLast?_concat, List.dropLast_concat,
      dedupByName_eq_self base hnd]
  have hiff : mt ∈ getAvailableMachineTypes (front ++ [base]) ↔
      mt ∈ base ∧ ∀ z ∈ front, mt.name ∈ okNames z := by
    rw [hgam, List.mem_filter]
    constructor
    · rintro ⟨hb, hf⟩
      rw [Bool.not_eq_true', contains_eq_false_iff] at hf
      refine ⟨hb, ?_⟩
      intro z hz
      by_contra hnot
      exact hf ((mem_toRemoveList base front mt.name).mpr
        ⟨z, hz, List.mem_map_of_mem _ hb, hnot⟩)
    · rintro ⟨hb, hall⟩
      refine ⟨hb, ?_⟩
      rw [Bool.not_eq_true', contains_eq_false_iff]
      intro hmem
      obtain ⟨z, hz, _, hnot⟩ := (mem_toRemoveList base front mt.name).mp hmem
      exact hnot (hall z hz)
  refine ⟨hiff, ?_⟩
  intro hm
  obtain ⟨hb, hall⟩ := hiff.mp hm
  obtain ⟨z0, hz0⟩ := List.exists_mem_of_ne_nil front hfront
  have hok := hall z0 hz0
  have hq := List.of_mem_filter hok
  have hok1 := List.mem_of_mem_filter hok
  have hp := List.of_mem_filter hok1
  rw [Bool.not_eq_true'] at hp
  rw [Bool.not_eq_true', Bool.or_eq_false_iff] at hq
  refine ⟨hp, hq.1, hq.2, ?_⟩
  intro z hz
  rcases List.mem_append.mp hz with hzf | hzb
  · exact List.mem_of_mem_filter (List.mem_of_mem_filter (hall z hzf))
  · rw [List.mem_singleton.mp hzb]
    exact List.mem_map_of_mem _ hb

/-- Zone catalogs for the C5 witness: two zones sharing `n1-standard-1`. -/
def zoneA : List MachineType := [⟨"n1-standard-1", 1, 3840⟩, ⟨"e2-small", 2, 2048⟩]

/-- Second (base) zone catalog for the C5 witness. -/
def zoneB : List MachineType := [⟨"n1-standard-1", 1, 3840⟩, ⟨"f1-micro", 1, 614⟩]

/-- C5 (witness): the amended characterisation evaluated on a concrete
two-zone fetch. -/
theorem getAvailableMachineTypes_spec_witness :
    ([zoneA] : List (List MachineType)) ≠ [] ∧
    (zoneB.map (fun mt => mt.name)).Nodup ∧
    ((⟨"n1-standard-1", 1, 3840⟩ : MachineType) ∈
        getAvailableMachineTypes ([zoneA] ++ [zoneB]) ↔
      (⟨"n1-standard-1", 1, 3840⟩ : MachineType) ∈ zoneB ∧
        ∀ z ∈ [zoneA], ("n1-standard-1" : String) ∈ okNames z) ∧
    ((⟨"n1-standard-1", 1, 3840⟩ : MachineType) ∈
        getAvailableMachineTypes ([zoneA] ++ [zoneB]) →
      strContainsSub "n1-standard-1" "micro" = false ∧
      strStartsWith "n1-standard-1" "e2" = false ∧
      strStartsWith "n1-standard-1" "m1" = false ∧
      ∀ z ∈ [zoneA] ++ [zoneB], ("n1-standard-1" : String) ∈ z.map (fun x => x.name)) :=
  ⟨by decide, by decide,
    getAvailableMachineTypes_spec [zoneA] zoneB ⟨"n1-standard-1", 1, 3840⟩
      (by decide) (by decide)⟩

/-- `os.path.basename` for slash-separated paths: the characters after the
last `/`. -/
def basename (p : String) : String :=
  String.mk (p.toList.foldl (fun acc c => if c = '/' then [] else acc ++ [c]) [])

/-- The destination blob name `"source/cache/%s" % os.path.basename(targz)`
chosen by `_upload_build_source_package` (line 746). -/
def uploadName (targz : String) : String :=
  "source/cache/" ++ basename targz

/-- The `_shutdown` closure of `shutdown` (lines 185-199): when the user asked
to keep the source cache only a debug note is emitted; otherwise, for each
tracked package name, delete the blob of that name if it exists.  The store is
the list of blob names in the bucket. -/
def shutdownStore (save : Bool) (packages : List String) (store : List String) :
    List String :=
  if save then store
  else packages.foldl (fun st p => if st.contains p then st.erase p else st) store

/-- C7: the tracked package names are local filesystem paths
(`aux_path/workdir-{hash}.tar.gz`), while the uploaded blob is named
`source/cache/workdir-{hash}.tar.gz`; shutdown deletes blobs under the
*local* names, so the uploaded blob survives a non-retention shutdown — the
cache is never actually cleaned, contradicting the `keep_source_cache`
documentation ("By default, the caches are deleted at the shutdown step").
The retention path leaves the store unchanged, as claimed. -/
theorem shutdownStore_misses_uploaded_blob :
    uploadName "/aux/workdir-abc.tar.gz" = "source/cache/workdir-abc.tar.gz" ∧
    "/aux/workdir-abc.tar.gz" ≠ "source/cache/workdir-abc.tar.gz" ∧
    shutdownStore false ["/aux/workdir-abc.tar.gz"]
        ["source/cache/workdir-abc.tar.gz"] =
      ["source/cache/workdir-abc.tar.gz"] ∧
    shutdownStore true ["/aux/workdir-abc.tar.gz"]
        ["source/cache/workdir-abc.tar.gz"] =
      ["source/cache/workdir-abc.tar.gz"] := by
  refine ⟨by decide, by decide, by decide, by decide⟩

/-- The outside-workdir guard of `_generate_build_source_package`
(lines 694-705): raise a `WorkflowError` naming the first source file whose
resolved path does not *contain* `self.workdir` as a substring (the Python
test is `self.workdir not in os.path.realpath(filename)`).  Inputs are taken
to be already-resolved paths; the error payload is the offending filename. -/
def checkSourcesUnderWorkdir (workdir : String) (sources : List String) :
    Except String Unit :=
  match sources.find? (fun f => !(strContainsSub f workdir)) with
  | some f => .error f
  | none => .ok ()

/-- C8: the guard is a substring test, not a path-containment test: the file
`/root/wdx/file.txt` is not under the working directory `/root/wd` (its path
does not start with `/root/wd/`), yet packaging accepts it silently because
`/root/wd` occurs in the path as a substring; a path that does not contain
the working directory string anywhere is still rejected and named. -/
theorem checkSourcesUnderWorkdir_substring_cex :
    strStartsWith "/root/wdx/file.txt" ("/root/wd" ++ "/") = false ∧
    "/root/wdx/file.txt" ≠ "/root/wd" ∧
    checkSourcesUnderWorkdir "/root/wd" ["/root/wdx/file.txt"] = .ok () ∧
    checkSourcesUnderWorkdir "/root/wd" ["/other/file.txt"] =
      .error "/other/file.txt" := by
  refine ⟨by decide, by decide, rfl, rfl⟩

/-- The executor's package-cache state: local hash-named archives in
`persistence.aux_path`, the process-wide `self._build_packages` set, and the
bucket's blob names. -/
structure PkgState where
  localFiles : List String
  buildPackages : List String
  store : List String
deriving DecidableEq, Repr

/-- The hash-named archive path
`os.path.join(aux_path, f"workdir-{sha256}.tar.gz")` (lines 723-725). -/
def hashTarPath (auxPath sha : String) : String :=
  auxPath ++ "/workdir-" ++ sha ++ ".tar.gz"


/-- Cancel identical left and right string context around an append. -/
theorem str_append_cancel (a b s t : String) (h : a ++ s ++ b = a ++ t ++ b) :
    s = t := by
  apply String.ext
  have hd := congrArg String.data h
  rw [String.data_append, String.data_append, String.data_append,
    String.data_append] at hd
  exact List.append_cancel_left (List.append_cancel_right hd)

/-- Cancel an identical left string context. -/
theorem str_append_cancel_left (a s t : String) (h : a ++ s = a ++ t) : s = t := by
  apply String.ext
  have hd := congrArg String.data h
  rw [String.data_append, String.data_append] at hd
  exact List.append_cancel_left hd

/-- The basename fold appends characters as long as no `/` appears. -/
theorem foldl_basename_no_slash (ys : List Char) :
    (∀ c ∈ ys, c ≠ '/') → ∀ acc : List Char,
      ys.foldl (fun acc c => if c = '/' then [] else acc ++ [c]) acc = acc ++ ys := by
  induction ys with
  | nil => intro _ acc; simp
  | cons c t ih =>
    intro h acc
    rw [List.foldl_cons, if_neg (h c (List.mem_cons_self c t)),
      ih (fun d hd => h d (List.mem_cons_of_mem c hd)) (acc ++ [c]),
      List.append_assoc, List.singleton_append]

/-- `basename` keeps exactly the characters after the last slash. -/
theorem basename_mk_append_slash (xs ys : List Char) (h : ∀ c ∈ ys, c ≠ '/') :
    basename (String.mk (xs ++ '/' :: ys)) = String.mk ys := by
  have hfold : ((xs ++ '/' :: ys).foldl
      (fun acc c => if c = '/' then [] else acc ++ [c]) []) = ys := by
    rw [List.foldl_append, List.foldl_cons, if_pos rfl]
    simpa using foldl_basename_no_slash ys h []
  simpa [basename] using congrArg String.mk hfold

/-- The character decomposition of a hash-named archive path at its last
slash. -/
theorem hashTarPath_toList (auxPath sha : String) :
    (hashTarPath auxPath sha).data =
      auxPath.data ++ '/' :: ("workdir-".data ++ sha.data ++ ".tar.gz".data) := by
  show (auxPath ++ "/workdir-" ++ sha ++ ".tar.gz").data = _
  rw [String.data_append, String.data_append, String.data_append,
    List.append_assoc, List.append_assoc]
  congr 1

/-- For a slash-free hash, the basename of the hash-named archive path is
`workdir-{sha}.tar.gz`, independently of `aux_path`. -/
theorem basename_hashTarPath (auxPath sha : String)
    (h : ∀ c ∈ sha.data, c ≠ '/') :
    basename (hashTarPath auxPath sha) = "workdir-" ++ sha ++ ".tar.gz" := by
  have hys : ∀ c ∈ "workdir-".data ++ sha.data ++ ".tar.gz".data, c ≠ '/' := by
    intro c hc
    rcases List.mem_append.mp hc with hc | hc
    · rcases List.mem_append.mp hc with hc | hc
      · exact (by decide : ∀ c ∈ ("workdir-" : String).data, c ≠ '/') c hc
      · exact h c hc
    · exact (by decide : ∀ c ∈ (".tar.gz" : String).data, c ≠ '/') c hc
  have hmk : hashTarPath auxPath sha =
      String.mk (auxPath.data ++ '/' ::
        ("workdir-".data ++ sha.data ++ ".tar.gz".data)) :=
    String.ext (hashTarPath_toList auxPath sha)
  rw [hmk, basename_mk_append_slash _ _ hys]
  apply String.ext
  rw [String.data_append, String.data_append]

/-- Distinct slash-free hashes give distinct hash-named archive paths. -/
theorem hashTarPath_inj (auxPath s1 s2 : String)
    (h : hashTarPath auxPath s1 = hashTarPath auxPath s2) : s1 = s2 :=
  str_append_cancel (auxPath ++ "/workdir-") ".tar.gz" s1 s2 h

/-- The bytes of the compressed archive built at lines 708-717.  Python's
`tarfile.open(targz, "w:gz")` writes a gzip header that embeds the archive's
own base filename (the gzip FNAME field — here `snakemake-{tmpname}.tar`,
with `tmpname` drawn at random from `tempfile._get_candidate_names()`) and
the build timestamp (the gzip MTIME field), followed by the compressed tar
payload determined by the added files.  Two builds of the same working tree
therefore produce different byte streams whenever the temp name or the
build second differs — which is the case for any two runs. -/
structure TarGzBytes where
  gzipFname : String
  gzipMtime : Nat
  entries : List (String × String)
deriving DecidableEq, Repr

/-- The archive bytes produced by one run of
`_generate_build_source_package` for working-tree content `tree`, temp name
`tmpname` and build time `mtime`. -/
def archiveBytes (tree : List (String × String)) (tmpname : String)
    (mtime : Nat) : TarGzBytes :=
  ⟨"snakemake-" ++ tmpname ++ ".tar", mtime, tree⟩

/-- Archive bytes of the same tree differ whenever the random temp name
differs (the gzip FNAME field differs). -/
theorem archiveBytes_ne (tree : List (String × String)) (tmp1 tmp2 : String)
    (m1 m2 : Nat) (h : tmp1 ≠ tmp2) :
    archiveBytes tree tmp1 m1 ≠ archiveBytes tree tmp2 m2 := by
  intro he
  exact h (str_append_cancel "snakemake-" ".tar" tmp1 tmp2
    (congrArg TarGzBytes.gzipFname he))

/-- `_generate_build_source_package` (lines 707-736) after the
outside-workdir guard, given the SHA-256 `sha` of this run's archive bytes:
move the archive to `aux_path/workdir-{sha}.tar.gz` unless that file already
exists (discarding the temp copy otherwise), track the path in
`self._build_packages`, and return it. -/
def generateBuildSourcePackage (auxPath sha : String) (s : PkgState) :
    String × PkgState :=
  let hashTar := hashTarPath auxPath sha
  let locals := if s.localFiles.contains hashTar then s.localFiles
    else s.localFiles ++ [hashTar]
  let bps := if s.buildPackages.contains hashTar then s.buildPackages
    else s.buildPackages ++ [hashTar]
  (hashTar, { s with localFiles := locals, buildPackages := bps })

/-- `_upload_build_source_package` (lines 738-752): upload to
`source/cache/{basename}` only if no blob of that name exists.  The returned
flag records whether an upload was performed. -/
def uploadBuildSourcePackage (targz : String) (s : PkgState) : PkgState × Bool :=
  let name := uploadName targz
  if s.store.contains name then (s, false)
  else ({ s with store := s.store ++ [name] }, true)

/-- One packaging round as run by `__init__` (lines 175-176), with this run's
random temp name and build time: hash the archive bytes (`hashBytes` models
SHA-256 over `TarGzBytes`), generate the hash-named package, then upload it.
Returns the package identifier, the new state, and whether an upload
happened. -/
def packageRun (hashBytes : TarGzBytes → String) (auxPath : String)
    (tree : List (String × String)) (tmpname : String) (mtime : Nat)
    (s : PkgState) : String × PkgState × Bool :=
  let sha := hashBytes (archiveBytes tree tmpname mtime)
  let g := generateBuildSourcePackage auxPath sha s
  let u := uploadBuildSourcePackage g.1 g.2
  (g.1, u.1, u.2)

/-- C9: packaging is *not* idempotent over content.  The hashed bytes embed
the run's random temp basename (gzip FNAME) and build time (gzip MTIME), so
packaging the same working tree twice hashes two *different* byte streams
(first conjunct, unconditionally); whenever SHA-256 separates them (`hhash`,
its failure being a hash collision) and the hashes are slash-free hex digests
(`hsl1`/`hsl2`), the two runs return different package identifiers and the
second run uploads a second blob instead of reusing the first. -/
theorem packageRun_not_content_addressed (hashBytes : TarGzBytes → String)
    (auxPath : String) (tree : List (String × String)) (tmp1 tmp2 : String)
    (m1 m2 : Nat) (s0 : PkgState)
    (htmp : tmp1 ≠ tmp2)
    (hhash : hashBytes (archiveBytes tree tmp1 m1) ≠
      hashBytes (archiveBytes tree tmp2 m2))
    (hsl1 : ∀ c ∈ (hashBytes (archiveBytes tree tmp1 m1)).data, c ≠ '/')
    (hsl2 : ∀ c ∈ (hashBytes (archiveBytes tree tmp2 m2)).data, c ≠ '/')
    (h1 : uploadName (hashTarPath auxPath
      (hashBytes (archiveBytes tree tmp1 m1))) ∉ s0.store)
    (h2 : uploadName (hashTarPath auxPath
      (hashBytes (archiveBytes tree tmp2 m2))) ∉ s0.store) :
    archiveBytes tree tmp1 m1 ≠ archiveBytes tree tmp2 m2 ∧
    (packageRun hashBytes auxPath tree tmp1 m1 s0).1 ≠
      (packageRun hashBytes auxPath tree tmp2 m2
        (packageRun hashBytes auxPath tree tmp1 m1 s0).2.1).1 ∧
    (packageRun hashBytes auxPath tree tmp1 m1 s0).2.2 = true ∧
    (packageRun hashBytes auxPath tree tmp2 m2
      (packageRun hashBytes auxPath tree tmp1 m1 s0).2.1).2.2 = true := by
  have hup_ne : uploadName (hashTarPath auxPath
        (hashBytes (archiveBytes tree tmp2 m2))) ≠
      uploadName (hashTarPath auxPath (hashBytes (archiveBytes tree tmp1 m1))) := by
    intro he
    rw [uploadName, uploadName, basename_hashTarPath _ _ hsl2,
      basename_hashTarPath _ _ hsl1] at he
    exact hhash (str_append_cancel "workdir-" ".tar.gz" _ _
      (str_append_cancel_left "source/cache/" _ _ he)).symm
  refine ⟨archiveBytes_ne tree tmp1 tmp2 m1 m2 htmp, ?_, ?_, ?_⟩
  · intro he
    have he' : hashTarPath auxPath (hashBytes (archiveBytes tree tmp1 m1)) =
        hashTarPath auxPath (hashBytes (archiveBytes tree tmp2 m2)) := he
    exact hhash (hashTarPath_inj _ _ _ he')
  · simp [packageRun, generateBuildSourcePackage, uploadBuildSourcePackage, h1]
  · simp [packageRun, generateBuildSourcePackage, uploadBuildSourcePackage,
      h1, h2, hup_ne]

/-- C9 (witness): two concrete runs over the same one-file tree with
different random temp names, using a stand-in byte hash: the archive bytes
differ and both runs upload. -/
theorem packageRun_not_content_addressed_witness :
    ("aaa" : String) ≠ "bbb" ∧
    archiveBytes [("Snakefile", "x")] "aaa" 0 ≠
      archiveBytes [("Snakefile", "x")] "bbb" 0 ∧
    (packageRun (fun b => b.gzipFname) "/aux" [("Snakefile", "x")] "aaa" 0
      ⟨[], [], []⟩).2.2 = true ∧
    (packageRun (fun b => b.gzipFname) "/aux" [("Snakefile", "x")] "bbb" 0
      (packageRun (fun b => b.gzipFname) "/aux" [("Snakefile", "x")] "aaa" 0
        ⟨[], [], []⟩).2.1).2.2 = true := by
  have H := packageRun_not_content_addressed (fun b => b.gzipFname) "/aux"
    [("Snakefile", "x")] "aaa" "bbb" 0 0 ⟨[], [], []⟩ (by decide) (by decide)
    (by decide) (by decide) (by decide) (by decide)
  exact ⟨by decide, H.1, H.2.2.1, H.2.2.2⟩

/-- The mutable attributes read or written by the resource-planning prelude:
`self._machine_type_prefix` (written only inside `_add_gpu` and initialised
nowhere in the module, so `none` models the missing attribute),
`self.machine_type_prefix` (overwritten from the job's resources at line 486
and read by the filtering), and the workflow-wide
`resource_settings.default_resources` key-value store. -/
structure ExecState where
  machineTypePrefStored : Option String
  machineTypePref : Option String
  defaultResources : List (String × Nat)
deriving DecidableEq, Repr

/-- A Python runtime error surfacing from the planning prelude. -/
inductive PyError where
  /-- Reading a `self` attribute that was never assigned. -/
  | attributeError (attr : String)
deriving DecidableEq, Repr

/-- `default_resources.set_resource(key, value)`: update an existing key in
place or append a new entry. -/
def setResource (l : List (String × Nat)) (k : String) (v : Nat) :
    List (String × Nat) :=
  if l.any (fun kv => kv.1 == k) then
    l.map (fun kv => if kv.1 == k then (k, v) else kv)
  else l ++ [(k, v)]

/-- `_add_gpu` (lines 430-450): a no-op for a zero/absent count; otherwise
set the workflow default resource `nvidia_gpu` to the count (lines 444-446),
then evaluate `self._machine_type_prefix or ""` (line 448).  The underscore
attribute is assigned only inside `_add_gpu` itself and initialised nowhere,
so on the attribute's first read Python raises `AttributeError` — after the
default-resources mutation has already happened.  Were the attribute ever
set (no code path in the module does so before this read), a falsy value
becomes `""` and a value not starting with `"n1"` is replaced by `"n1"`
(lines 449-450). -/
def addGpu (gpuCount : Nat) (s : ExecState) : Option PyError × ExecState :=
  if gpuCount = 0 then (none, s)
  else
    let s1 : ExecState :=
      { s with defaultResources := setResource s.defaultResources "nvidia_gpu" gpuCount }
    match s1.machineTypePrefStored with
    | none => (some (.attributeError "_machine_type_prefix"), s1)
    | some p =>
      let p' := if strStartsWith p "n1" then p else "n1"
      (none, { s1 with machineTypePrefStored := some p' })

/-- A job's resource requests as read by the planning prelude (lines 477-490):
`nvidia_gpu`, `gpu`, `gpu_model` and `machine_type`. -/
structure JobResources where
  nvidiaGpu : Option Nat
  gpu : Option Nat
  gpuModel : Option String
  machineType : Option String
deriving DecidableEq, Repr

/-- `gpu_count = job.resources.get("nvidia_gpu") or job.resources.get("gpu")`
followed by `if gpu_model and not gpu_count: gpu_count = 1` — Python's `or`
treats both `None` and `0` as falsy, modeled by `Option.getD 0`. -/
def effectiveGpuCount (r : JobResources) : Nat :=
  let c := if r.nvidiaGpu.getD 0 ≠ 0 then r.nvidiaGpu.getD 0 else r.gpu.getD 0
  if r.gpuModel.isSome && (c == 0) then 1 else c

/-- The state effects of the `_generate_job_resources` prelude (lines
477-490): overwrite `self.machine_type_prefix` with the job's `machine_type`
resource, then, when a GPU is requested, run `_add_gpu` — which may raise.
Returns the raised error (if any) together with the state after the
partially-applied effects. -/
def planStatePrelude (r : JobResources) (s : ExecState) :
    Option PyError × ExecState :=
  let s1 : ExecState := { s with machineTypePref := r.machineType }
  if effectiveGpuCount r ≠ 0 then addGpu (effectiveGpuCount r) s1 else (none, s1)

/-- C10 (counterexample): planning a job that requests one GPU is not
state-preserving: it first sets the workflow default resource `nvidia_gpu`
— a mutation that outlives the call — and then raises `AttributeError`
reading the never-initialised `self._machine_type_prefix`, so the plan
crashes with the workflow state already changed. -/
theorem planStatePrelude_c10_cex :
    (planStatePrelude ⟨some 1, none, none, none⟩ ⟨none, none, []⟩).2 ≠
      ⟨none, none, []⟩ ∧
    (planStatePrelude ⟨some 1, none, none, none⟩ ⟨none, none, []⟩).2.defaultResources
      = [("nvidia_gpu", 1)] ∧
    (planStatePrelude ⟨some 1, none, none, none⟩ ⟨none, none, []⟩).1 =
      some (.attributeError "_machine_type_prefix") := by
  refine ⟨by decide, rfl, rfl⟩

/-- C10 (amended): the planning prelude always overwrites
`self.machine_type_prefix` with the job's own `machine_type` resource; a job
with no effective GPU request changes nothing else and raises nothing; a GPU
job (with `self._machine_type_prefix` unset, as it is in every run, since no
code initialises it) first sets the workflow default resource `nvidia_gpu` to
the requested count — a mutation that persists into subsequent jobs' plans —
and then raises `AttributeError` at the read of `self._machine_type_prefix`,
so GPU planning crashes before any machine type is selected and the intended
n1-prefix store is never reached. -/
theorem planStatePrelude_effects (r : JobResources) (s : ExecState) :
    (effectiveGpuCount r = 0 →
      planStatePrelude r s = (none, { s with machineTypePref := r.machineType })) ∧
    (effectiveGpuCount r ≠ 0 → s.machineTypePrefStored = none →
      planStatePrelude r s =
        (some (.attributeError "_machine_type_prefix"),
          { s with machineTypePref := r.machineType,
                   defaultResources :=
                     setResource s.defaultResources "nvidia_gpu"
                       (effectiveGpuCount r) })) := by
  constructor
  · intro h0
    simp [planStatePrelude, h0]
  · intro hne hnone
    rw [planStatePrelude]
    simp only [if_pos hne]
    rw [addGpu, if_neg hne]
    simp [hnone]

/-- C10 (witness): the amended state-effect description evaluated on a
concrete GPU job (default resource set, then AttributeError) and a concrete
non-GPU job (only the per-call machine-type filter field changes). -/
theorem planStatePrelude_effects_witness :
    effectiveGpuCount ⟨some 2, none, none, none⟩ ≠ 0 ∧
    (⟨none, some "x", [("mem_mb", 1024)]⟩ : ExecState).machineTypePrefStored
      = none ∧
    effectiveGpuCount ⟨none, none, none, some "c2"⟩ = 0 ∧
    planStatePrelude ⟨some 2, none, none, none⟩
        ⟨none, some "x", [("mem_mb", 1024)]⟩ =
      (some (.attributeError "_machine_type_prefix"),
        ⟨none, none, [("mem_mb", 1024), ("nvidia_gpu", 2)]⟩) ∧
    planStatePrelude ⟨none, none, none, some "c2"⟩
        ⟨none, some "x", [("mem_mb", 1024)]⟩ =
      (none, ⟨none, some "c2", [("mem_mb", 1024)]⟩) := by
  have H := planStatePrelude_effects ⟨some 2, none, none, none⟩
    ⟨none, some "x", [("mem_mb", 1024)]⟩
  have H0 := planStatePrelude_effects ⟨none, none, none, some "c2"⟩
    ⟨none, some "x", [("mem_mb", 1024)]⟩
  exact ⟨by decide, rfl, by decide,
    (H.2 (by decide) rfl).trans (by decide),
    (H0.1 (by decide)).trans (by decide)⟩
